import Mathlib

/-!
Verification development for the fleet-supervision / scheduled-dispatch core:
shallow embedding of the Python sources (app/core/utils.py, app/domain/services.py,
app/scheduling/dispatcher.py, app/scheduling/category_scheduler.py,
app/bots/supervisor.py, app/bots/heartbeat.py) together with theorems settling
the specification claims.  Randomness is made explicit: every random draw is a
natural-number parameter; machine time is an integer parameter.
-/

namespace Kings

/-! ## app/core/utils.py -/

/-- Embeds the cumulative-weight draw performed by `random.choices(population,
weights=..., k=1)` inside `weighted_choice`: `random.choices` builds the list of
cumulative weights and bisects it at a uniform draw `u` in `[0, total)`;
equivalently, it returns the index of the first item whose weight prefix-sum
exceeds `u`.  `pickIndex ws u` is that index. -/
def pickIndex : List Int → Int → Nat
  | [], _ => 0
  | w :: ws, u => if u < w then 0 else pickIndex ws (u - w) + 1

/-- Embeds `weighted_choice` from `app/core/utils.py`.  The Python function
takes a sequence of `(item, weight)` pairs; on the empty sequence it returns
`None`; when the weight total is `<= 0` it falls back to `random.choice`
(a uniform index draw, modelled as `r % length`); otherwise it performs one
weighted draw via `random.choices` (modelled by `pickIndex` at `r % total`). -/
def weighted_choice {α : Type} : List (α × Int) → Nat → Option α
  | [], _ => none
  | p :: ps, r =>
    let total : Int := ((p :: ps).map Prod.snd).sum
    if total ≤ 0 then
      some ((p :: ps).get ⟨r % (p :: ps).length, Nat.mod_lt _ (Nat.succ_pos _)⟩).1
    else
      (((p :: ps).get? (pickIndex ((p :: ps).map Prod.snd) ((r % total.toNat : Nat) : Int)))).map Prod.fst

/-! ## app/domain/models.py data-transfer records (fields used by the core) -/

structure MediaDTO where
  id : Int
  media_type : String
  file_id : String
  caption : Option String
  weight : Option Int
deriving DecidableEq, Repr

structure CopyDTO where
  id : Int
  text : String
  weight : Option Int
deriving DecidableEq, Repr

structure ButtonDTO where
  id : Int
  label : String
  url : String
  weight : Option Int
deriving DecidableEq, Repr

structure CategoryData where
  id : Int
  slug : String
  use_random_media : Bool
  use_random_copy : Bool
  use_spoiler_media : Bool
  media_items : List MediaDTO
  copies : List CopyDTO
  buttons : List ButtonDTO
  dispatch_interval_minutes : Option Int
  next_dispatch_at : Option Int
deriving DecidableEq, Repr

structure Payload where
  media : Option MediaDTO
  message : Option CopyDTO
  buttons : List ButtonDTO
  media_spoiler : Bool
deriving DecidableEq, Repr

/-! ## app/domain/services.py -- CategoryService.random_payload -/

/-- Embeds the Python expression `m.weight or 1` used by
`CategoryService.random_payload` when building the pair lists handed to
`weighted_choice`: `None` and `0` are falsy in Python, so both become `1`. -/
def effWeight : Option Int → Int
  | none => 1
  | some w => if w = 0 then 1 else w

/-- Embeds the Python expression `b.weight or 0` used in the button sort key of
`CategoryService.random_payload` (`None` and `0` both yield `0`). -/
def btnWeightKey (w : Option Int) : Int :=
  match w with
  | none => 0
  | some x => x

/-- Embeds the button ordering of `CategoryService.random_payload`:
`sorted(category.buttons, key=lambda b: (b.weight or 0, b.id))`, a stable sort
on the lexicographic key `(weight or 0, id)`. -/
def sortButtons (bs : List ButtonDTO) : List ButtonDTO :=
  bs.mergeSort (fun a b =>
    btnWeightKey a.weight < btnWeightKey b.weight ∨
      (btnWeightKey a.weight = btnWeightKey b.weight ∧ a.id ≤ b.id))

/-- Embeds `CategoryService.random_payload` from `app/domain/services.py`.
The two random draws of the Python function (one for media, one for copy) are
the explicit parameters `rm` and `rc`.  Media: when allowed and nonempty,
either a weighted draw over `(m, m.weight or 1)` pairs or the first item;
copy likewise; buttons: when allowed, all buttons sorted by
`(weight or 0, id)`; the spoiler flag is copied from the category. -/
def random_payload (cat : CategoryData) (allow_media allow_copy allow_buttons : Bool)
    (rm rc : Nat) : Payload :=
  let media : Option MediaDTO :=
    if allow_media ∧ cat.media_items ≠ [] then
      if cat.use_random_media then
        weighted_choice (cat.media_items.map (fun m => (m, effWeight m.weight))) rm
      else
        cat.media_items.head?
    else none
  let message : Option CopyDTO :=
    if allow_copy ∧ cat.copies ≠ [] then
      if cat.use_random_copy then
        weighted_choice (cat.copies.map (fun c => (c, effWeight c.weight))) rc
      else
        cat.copies.head?
    else none
  let buttons : List ButtonDTO :=
    if allow_buttons ∧ cat.buttons ≠ [] then sortButtons cat.buttons else []
  { media := media, message := message, buttons := buttons,
    media_spoiler := cat.use_spoiler_media }

/-! ## app/scheduling/dispatcher.py -- DispatchEngine

Collaborator outcomes (the Telegram transport) are explicit inputs: the result
of `bot.get_chat_member` during the admin check and the result of the
`bot.send_*` call during delivery.  Cooperative single-threaded scheduling
(asyncio) lets the concurrent `asyncio.gather` fan-out be modelled as the
in-order list of per-target runs. -/

/-- Outcome of `bot.get_chat_member(chat_id, bot.id)` in
`DispatchEngine._ensure_admin`: the call may raise `Forbidden`, raise a generic
error, or return a member whose status is or is not administrator/owner. -/
inductive AdminOutcome
  | forbidden
  | raised
  | status (isAdminOrOwner : Bool)
deriving DecidableEq, Repr

/-- Outcome of the single `bot.send_*` transport call attempted for a target in
`DispatchEngine._send_payload`. -/
inductive SendOutcome
  | ok
  | forbidden
  | genericError
deriving DecidableEq, Repr

/-- Result of `DispatchEngine._ensure_admin` as seen by its caller: `ok`
(returned `True`), `denied` (returned `False`), or `raised` (a generic error
from `get_chat_member` propagated out of the coroutine). -/
inductive AdminAnswer
  | ok
  | denied
  | raised
deriving DecidableEq, Repr

/-- Embeds `DispatchEngine._ensure_admin`.  The `TTLCache` is modelled as an
association list of `(chat_id, flag)` entries (TTL expiry only removes
entries, which cannot affect the properties proved here).  A cache hit returns
`True` at once; `Forbidden` from `get_chat_member` returns `False`; a
non-administrator status returns `False`; only the confirmed-administrator
outcome stores `True` in the cache. -/
def ensure_admin (cache : List (Int × Bool)) (chat : Int) (oc : AdminOutcome) :
    AdminAnswer × List (Int × Bool) :=
  if (cache.lookup chat).isSome then (.ok, cache)
  else
    match oc with
    | .forbidden => (.denied, cache)
    | .raised => (.raised, cache)
    | .status b => if b then (.ok, (chat, true) :: cache) else (.denied, cache)

/-- Embeds Python `a or b` on optional strings: `None` and the empty string are
falsy, anything else is returned unchanged. -/
def pyOrStr : Option String → Option String → Option String
  | some s, b => if s = "" then b else some s
  | none, b => b

/-- Embeds the caption computation of `DispatchEngine._send_payload`:
`caption = payload.media.caption or (payload.message.text if payload.message
else None)`. -/
def sendCaption (m : MediaDTO) (message : Option CopyDTO) : Option String :=
  pyOrStr m.caption (message.map CopyDTO.text)

/-- Observable actions of one `DispatchEngine.dispatch_category` call: sends to
a target chat, log lines, and alerts forwarded to the `AdminNotifier`. -/
inductive DEvent
  | skipNotAdmin (chat : Int)
  | sentMedia (chat : Int) (media_type : String) (caption : Option String) (spoiler : Bool)
  | sentText (chat : Int) (text : String)
  | sentPrompt (chat : Int)
  | logUnsupportedMedia (chat : Int)
  | logForbidden (chat : Int)
  | logError (chat : Int)
  | alertSent (slug : String)
deriving DecidableEq, Repr

/-- Embeds the `try`-guarded transport attempt inside
`DispatchEngine._send_payload`: on success the given sent-event is emitted; a
`Forbidden` from the transport is caught and logged; any other exception is
caught and logged as `dispatch.error`.  Neither handler re-raises, so the
delivery coroutine returns normally in all three cases. -/
def sendAttempt (chat : Int) (ev : DEvent) : SendOutcome → List DEvent
  | .ok => [ev]
  | .forbidden => [DEvent.logForbidden chat]
  | .genericError => [DEvent.logError chat]

/-- Embeds `DispatchEngine._send_payload` for one target: the admin gate, then
media / text / buttons-only / empty payload dispatch.  Returns the emitted
events, whether the coroutine raised (only a generic `get_chat_member` error
escapes; every transport error is caught inside), and the updated admin
cache.  Photo, video and animation sends carry the spoiler flag; document
sends have no spoiler parameter; an unsupported media type is logged and the
target is skipped without raising. -/
def send_payload (cache : List (Int × Bool)) (chat : Int) (p : Payload)
    (adm : AdminOutcome) (snd : SendOutcome) :
    List DEvent × Bool × List (Int × Bool) :=
  match ensure_admin cache chat adm with
  | (.raised, c) => ([], true, c)
  | (.denied, c) => ([DEvent.skipNotAdmin chat], false, c)
  | (.ok, c) =>
    match p.media with
    | some m =>
      let caption := sendCaption m p.message
      if m.media_type = "photo" ∨ m.media_type = "video" ∨ m.media_type = "animation" then
        (sendAttempt chat (DEvent.sentMedia chat m.media_type caption p.media_spoiler) snd,
          false, c)
      else if m.media_type = "document" then
        (sendAttempt chat (DEvent.sentMedia chat m.media_type caption false) snd, false, c)
      else
        ([DEvent.logUnsupportedMedia chat], false, c)
    | none =>
      match p.message with
      | some msg => (sendAttempt chat (DEvent.sentText chat msg.text) snd, false, c)
      | none =>
        if p.buttons ≠ [] then
          (sendAttempt chat (DEvent.sentPrompt chat) snd, false, c)
        else ([], false, c)

/-- A sequence of per-target admin checks folded through the shared cache, in
cooperative execution order (the checks of one or more dispatches). -/
def runChecks (cache : List (Int × Bool)) : List (Int × AdminOutcome) → List (Int × Bool)
  | [] => cache
  | (chat, oc) :: rest => runChecks (ensure_admin cache chat oc).2 rest

/-- One delivery target of a dispatch: its chat id together with the transport
outcomes its coroutine would observe. -/
structure TargetRun where
  chat : Int
  adm : AdminOutcome
  snd : SendOutcome
deriving DecidableEq, Repr

/-- Per-target results of the `asyncio.gather(..., return_exceptions=True)`
fan-out in `DispatchEngine.dispatch_category`: each target's emitted events and
whether its coroutine ended in an exception. -/
def runTargets (p : Payload) :
    List (Int × Bool) → List TargetRun → List (List DEvent × Bool) × List (Int × Bool)
  | cache, [] => ([], cache)
  | cache, t :: ts =>
    let r := send_payload cache t.chat p t.adm t.snd
    let rest := runTargets p r.2.2 ts
    ((r.1, r.2.1) :: rest.1, rest.2)

/-- Embeds `DispatchEngine.dispatch_category` after payload composition: run
every target (gather with exception isolation), then walk the results and, for
each result that is an exception, log it and — when a notifier with recipients
is configured — forward one failure alert.  Returns the per-target results,
the final admin cache, and the number of alerts sent. -/
def dispatch_category (slug : String) (hasRecipients : Bool) (p : Payload)
    (cache : List (Int × Bool)) (targets : List TargetRun) :
    (List (List DEvent × Bool)) × List (Int × Bool) × List DEvent :=
  let r := runTargets p cache targets
  let raisedCount := (r.1.filter (fun pr => pr.2)).length
  (r.1, r.2,
    if hasRecipients then List.replicate raisedCount (DEvent.alertSent slug) else [])

/-! ## app/bots/supervisor.py -- BotSupervisor

One `BotSupervisor._check_bots` tick is embedded as a pure transformation of a
state snapshot (bot rows, group rows, failover log) together with an event
trace in program order.  Two session facts from the source stack matter here:
`BotRepository.update_status` issues an ORM-enabled UPDATE through the same
session that loaded the rows, so SQLAlchemy's `synchronize_session`
("evaluate") also updates the already-loaded `Bot` objects in memory; and
`GroupRepository.active_groups_for_bot` re-queries groups, seeing earlier
reassignments of the same tick. -/

structure BotRec where
  id : Int
  name : String
  status : String
  last_heartbeat : Option Int
  heartbeat_interval_seconds : Option Int
deriving DecidableEq, Repr

structure GroupRec where
  id : Int
  telegram_chat_id : Int
  assigned_bot_id : Option Int
  active : Bool
deriving DecidableEq, Repr

structure FailoverLog where
  group_id : Int
  old_bot_id : Option Int
  new_bot_id : Option Int
  reason : String
deriving DecidableEq, Repr

structure SupState where
  bots : List BotRec
  groups : List GroupRec
  failovers : List FailoverLog
deriving DecidableEq, Repr

/-- Trace events of one supervisor tick, in program order: a status write in
the per-bot health phase, the evaluation of the fleet-wide promotion
conditional (`if not active_bots and standby_bots`), a promotion write inside
that conditional, and a group reassignment with its failover-log append. -/
inductive SupEvent
  | statusWrite (bot : Int) (status : String)
  | promotionPhase (fired : Bool)
  | promote (bot : Int)
  | reassign (group : Int) (newBot : Option Int)
deriving DecidableEq, Repr

/-- Embeds the per-bot timeout computation
`timedelta(seconds=bot.heartbeat_interval_seconds or self.config.heartbeat_timeout_seconds)`
(Python `or`: a stored `0` or `None` falls back to the configured default). -/
def healthTimeout (cfgDefault : Int) (b : BotRec) : Int :=
  match b.heartbeat_interval_seconds with
  | none => cfgDefault
  | some s => if s = 0 then cfgDefault else s

/-- Embeds the health test `bot.last_heartbeat and now - bot.last_heartbeat <= timeout`:
a bot with no recorded heartbeat is unhealthy. -/
def isHealthy (cfgDefault now : Int) (b : BotRec) : Bool :=
  match b.last_heartbeat with
  | some t => decide (now - t ≤ healthTimeout cfgDefault b)
  | none => false

/-- Embeds one iteration of the health loop in `BotSupervisor._check_bots`:
a healthy bot whose stored status differs from `"active"` is updated to
`"active"` (the UPDATE synchronizes the in-session row, so the subsequent
`bot.status == "standby"` test reads the new value); an unhealthy bot is
collected as offline and updated to `"offline"`.  Returns the updated row,
the offline flag, the appended-to-standby flag, and the emitted writes. -/
def detectBot (cfgDefault now : Int) (b : BotRec) :
    BotRec × Bool × Bool × List SupEvent :=
  if isHealthy cfgDefault now b then
    if b.status ≠ "active" then
      let b1 := { b with status := "active" }
      (b1, false, b1.status = "standby", [SupEvent.statusWrite b.id "active"])
    else
      (b, false, b.status = "standby", [])
  else
    ({ b with status := "offline" }, true, false, [SupEvent.statusWrite b.id "offline"])

/-- The health phase over the whole bot list: updated rows, offline rows (in
list order), rows appended to `standby_bots`, and the write trace. -/
def detectAll (cfgDefault now : Int) :
    List BotRec → List BotRec × List BotRec × List BotRec × List SupEvent
  | [] => ([], [], [], [])
  | b :: bs =>
    let r := detectBot cfgDefault now b
    let rest := detectAll cfgDefault now bs
    (r.1 :: rest.1,
      (if r.2.1 then [r.1] else []) ++ rest.2.1,
      (if r.2.2.1 then [r.1] else []) ++ rest.2.2.1,
      r.2.2.2 ++ rest.2.2.2)

/-- Embeds comparison of the sort key `b.last_heartbeat or datetime.min` used
by `BotSupervisor._choose_replacement`: a recorded heartbeat compares above a
missing one, heartbeats compare by value. -/
def hbGt : Option Int → Option Int → Bool
  | some x, some y => decide (y < x)
  | some _, none => true
  | none, _ => false

/-- Embeds `BotSupervisor._choose_replacement`: drop the failed bot from the
candidate list, return `None` when nothing remains, otherwise the first
candidate (stable order) with the most recent heartbeat — Python's stable
`sorted(..., reverse=True)[0]`. -/
def chooseReplacement (bots : List BotRec) (failedId : Int) : Option BotRec :=
  match bots.filter (fun b => b.id ≠ failedId) with
  | [] => none
  | c :: cs =>
    some (cs.foldl (fun best b => if hbGt b.last_heartbeat best.last_heartbeat then b else best) c)

/-- Reassignment of every active group of one newly offline bot: each such
group's assignment is re-pointed at the chosen replacement (or cleared) and a
`BotFailoverLog` row with reason `"heartbeat timeout"` is appended. -/
def reassignBot (activeList : List BotRec) (b : BotRec)
    (st : List GroupRec × List FailoverLog × List SupEvent) :
    List GroupRec × List FailoverLog × List SupEvent :=
  let gs := st.1.filter (fun g => g.assigned_bot_id = some b.id ∧ g.active)
  gs.foldl
    (fun acc g =>
      let repl := chooseReplacement activeList b.id
      let newId := repl.map (fun w => w.id)
      (acc.1.map (fun g0 => if g0.id = g.id then { g0 with assigned_bot_id := newId } else g0),
        acc.2.1 ++ [⟨g.id, some b.id, newId, "heartbeat timeout"⟩],
        acc.2.2 ++ [SupEvent.reassign g.id newId]))
    st

/-- Embeds one `BotSupervisor._check_bots` tick: the health phase over all
bots, then the fleet-wide promotion conditional (promoting every collected
standby when no bot is left with status `"active"`), then the failover loop
over the offline bots.  Returns the updated state and the event trace in
program order. -/
def check_bots (cfgDefault now : Int) (s : SupState) : SupState × List SupEvent :=
  let d := detectAll cfgDefault now s.bots
  let bots1 := d.1
  let offline := d.2.1
  let standbys := d.2.2.1
  let ev1 := d.2.2.2
  let active1 := bots1.filter (fun b => b.status = "active")
  let fired := active1.isEmpty && !standbys.isEmpty
  let evP := SupEvent.promotionPhase fired ::
    (if fired then standbys.map (fun b => SupEvent.promote b.id) else [])
  let bots2 :=
    if fired then
      bots1.map (fun b => if standbys.any (fun s0 => s0.id = b.id) then { b with status := "active" } else b)
    else bots1
  let activeList :=
    if fired then active1 ++ standbys.map (fun b => { b with status := "active" }) else active1
  let r := offline.foldl (fun acc b => reassignBot activeList b acc) (s.groups, s.failovers, [])
  ({ bots := bots2, groups := r.1, failovers := r.2.1 }, ev1 ++ evP ++ r.2.2)

/-- Classifies health-phase write events. -/
def isDetectEvent : SupEvent → Bool
  | .statusWrite _ _ => true
  | _ => false

/-- Classifies the promotion-conditional marker event. -/
def isPromotionPhaseEvent : SupEvent → Bool
  | .promotionPhase _ => true
  | _ => false

/-- Classifies promotion write events. -/
def isPromoteEvent : SupEvent → Bool
  | .promote _ => true
  | _ => false

/-- Classifies reassignment events. -/
def isReassignEvent : SupEvent → Bool
  | .reassign _ _ => true
  | _ => false

/-! ## app/scheduling/category_scheduler.py -- CategoryScheduler

The scheduler tick `CategoryScheduler._process` calls two `CategoryService`
methods, `list_due_for_dispatch` and `record_dispatch`, that are absent from
the source tree (only this caller exists); both are modelled from the spec
below.  Time is a single integer `now` for the tick (cooperative scheduling;
`datetime.now` is re-read per category in the source, abstracted here to the
tick instant), and whether `dispatch_category` raises for a given category is
an explicit oracle. -/

/-- Modelled from the spec: `CategoryService.list_due_for_dispatch` is invoked
by `CategoryScheduler._process` but not defined anywhere under the source
tree.  Spec §4.5: select the content groups where `next_dispatch_at` is
non-null and `<= now`, or where `dispatch_interval` is set and
`next_dispatch_at` is null (first run). -/
def isDue (now : Int) (c : CategoryData) : Bool :=
  (match c.next_dispatch_at with
   | some t => decide (t ≤ now)
   | none => false) ||
  (c.dispatch_interval_minutes.isSome && c.next_dispatch_at.isNone)

/-- Modelled from the spec: `CategoryService.record_dispatch` is invoked by
`CategoryScheduler._process` but not defined anywhere under the source tree.
Spec §4.5: advance `next_dispatch_at = now + dispatch_interval` (time measured
in the same abstract units as `dispatch_interval`). -/
def record_dispatch (dispatched_at : Int) (c : CategoryData) : CategoryData :=
  { c with next_dispatch_at := c.dispatch_interval_minutes.map (fun i => dispatched_at + i) }

/-- Embeds `CategoryScheduler._process`: list the due categories, then for
each one in turn call the Dispatch Engine and, on normal return, record the
dispatch; an exception from a category's dispatch is caught and logged inside
the loop body, skipping that category's `record_dispatch` but not the
remaining categories.  `raisesOn` tells which categories' dispatch raises.
Returns the updated category rows and the ids of the categories whose dispatch
was attempted, in order. -/
def scheduler_process (now : Int) (raisesOn : Int → Bool) (cats : List CategoryData) :
    List CategoryData × List Int :=
  (cats.map (fun c => if isDue now c && !raisesOn c.id then record_dispatch now c else c),
    (cats.filter (isDue now)).map (fun c => c.id))

/-! ## app/bots/heartbeat.py -- HeartbeatMonitor

The monitor's task slot is embedded as an optional task record with a done
flag; the repeating loop body is embedded as a trace over the per-iteration
callback outcomes (whether `self._heartbeat_callable` raised). -/

structure HBTask where
  id : Nat
  done : Bool
deriving DecidableEq, Repr

structure HBMon where
  task : Option HBTask
  nextId : Nat
deriving DecidableEq, Repr

/-- Embeds `HeartbeatMonitor.start`: when a task exists and is not done the
call returns at once (no second task); otherwise a fresh task is created. -/
def hb_start (m : HBMon) : HBMon :=
  match m.task with
  | some t =>
    if t.done then { task := some ⟨m.nextId, false⟩, nextId := m.nextId + 1 } else m
  | none => { task := some ⟨m.nextId, false⟩, nextId := m.nextId + 1 }

/-- Embeds `HeartbeatMonitor.stop`: with no task the call does nothing;
otherwise the task is cancelled, awaited, and the slot cleared. -/
def hb_stop (m : HBMon) : HBMon :=
  match m.task with
  | none => m
  | some _ => { m with task := none }

/-- Observable actions of the heartbeat loop `HeartbeatMonitor._run`: the
inter-tick sleep, the liveness callback invocation, and the catch-and-log of a
callback exception. -/
inductive HBEvent
  | sleep (interval : Int)
  | callbackCall (name : String)
  | callbackError (name : String)
deriving DecidableEq, Repr

/-- Embeds the body of `HeartbeatMonitor._run` over a finite prefix of loop
iterations: each iteration sleeps for the configured interval, then invokes
the callback with the bot name; an exception from the callback is caught and
logged, and the loop proceeds to the next iteration. -/
def hb_run (name : String) (interval : Int) : List Bool → List HBEvent
  | [] => []
  | raises :: rest =>
    HBEvent.sleep interval :: HBEvent.callbackCall name ::
      ((if raises then [HBEvent.callbackError name] else []) ++ hb_run name interval rest)

/-- Classifies callback-invocation events of the heartbeat loop. -/
def isCallbackCall : HBEvent → Bool
  | .callbackCall _ => true
  | _ => false

/-! ## Concrete fixtures used by witnesses and counterexamples -/

/-- A one-photo media row with stored weight 2. -/
def mediaW2 : MediaDTO :=
  { id := 1, media_type := "photo", file_id := "f", caption := none, weight := some 2 }

/-- A media row carrying a strictly negative stored weight. -/
def mediaNeg : MediaDTO :=
  { id := 1, media_type := "photo", file_id := "f", caption := none, weight := some (-3) }

/-- A category with one weighted photo under the random-media policy. -/
def catOnePhoto : CategoryData :=
  { id := 1, slug := "c", use_random_media := true, use_random_copy := false,
    use_spoiler_media := false, media_items := [mediaW2], copies := [], buttons := [],
    dispatch_interval_minutes := none, next_dispatch_at := none }

/-- A photo row whose own caption is "A". -/
def mediaCapA : MediaDTO :=
  { id := 2, media_type := "photo", file_id := "g", caption := some "A", weight := some 1 }

/-- A text row reading "B". -/
def copyB : CopyDTO :=
  { id := 3, text := "B", weight := some 1 }

/-- A payload holding both the captioned photo and the text row. -/
def payloadAB : Payload :=
  { media := some mediaCapA, message := some copyB, buttons := [], media_spoiler := false }

/-- A text-only payload (scenario C). -/
def payloadText : Payload :=
  { media := none, message := some copyB, buttons := [], media_spoiler := false }

/-- Scenario C target 1: admin confirmed, delivery succeeds. -/
def tOk : TargetRun := { chat := 1, adm := .status true, snd := .ok }

/-- Scenario C target 2: admin confirmed, the send raises Forbidden. -/
def tForb : TargetRun := { chat := 2, adm := .status true, snd := .forbidden }

/-- Scenario C target 3: admin confirmed, the send raises a generic error. -/
def tErr : TargetRun := { chat := 3, adm := .status true, snd := .genericError }

/-- A healthy worker stored as "active" (heartbeat 5 time units old, timeout 120). -/
def w1Active : BotRec :=
  { id := 1, name := "w1", status := "active", last_heartbeat := some 95,
    heartbeat_interval_seconds := some 120 }

/-- A healthy worker stored as "standby" (heartbeat 1 time unit old). -/
def w2Standby : BotRec :=
  { id := 2, name := "w2", status := "standby", last_heartbeat := some 99,
    heartbeat_interval_seconds := some 120 }

/-- A stale "active" worker (heartbeat 600 time units old, timeout 120). -/
def w1Stale : BotRec :=
  { id := 1, name := "w1", status := "active", last_heartbeat := some (-500),
    heartbeat_interval_seconds := some 120 }

/-- The delivery target assigned to worker 1. -/
def gT : GroupRec :=
  { id := 7, telegram_chat_id := 777, assigned_bot_id := some 1, active := true }

/-- Fleet with one healthy active and one healthy standby worker, no targets. -/
def stateTwoHealthy : SupState :=
  { bots := [w1Active, w2Standby], groups := [], failovers := [] }

/-- Scenario A fleet: stale active worker 1 owning target `gT`, healthy
standby worker 2. -/
def stateA : SupState :=
  { bots := [w1Stale, w2Standby], groups := [gT], failovers := [] }

/-- A content group due for dispatch: 60-unit interval, next-dispatch time in
the past (scenario D). -/
def catDue : CategoryData :=
  { id := 1, slug := "d", use_random_media := true, use_random_copy := true,
    use_spoiler_media := false, media_items := [], copies := [], buttons := [],
    dispatch_interval_minutes := some 60, next_dispatch_at := some (-5) }

/-! ## Helper lemmas -/

theorem pickIndex_lt_length (ws : List Int) (u : Int) (hu0 : 0 ≤ u) (hu : u < ws.sum)
    (hw : ∀ w ∈ ws, 0 ≤ w) : pickIndex ws u < ws.length := by
  induction ws generalizing u with
  | nil => simp at hu; omega
  | cons w ws ih =>
    simp only [pickIndex]
    by_cases h : u < w
    · simp [h]
    · simp only [h, if_false]
      have hsum : (w :: ws).sum = w + ws.sum := by simp
      have := ih (u - w) (by omega) (by rw [hsum] at hu; omega)
        (fun x hx => hw x (List.mem_cons_of_mem _ hx))
      simp only [List.length_cons]
      omega

theorem sum_nonneg_of_mem (ws : List Int) (hw : ∀ w ∈ ws, 0 ≤ w) : 0 ≤ ws.sum := by
  induction ws with
  | nil => simp
  | cons w ws ih =>
    simp only [List.sum_cons]
    have := hw w (List.mem_cons_self _ _)
    have := ih (fun x hx => hw x (List.mem_cons_of_mem _ hx))
    omega

theorem pickIndex_count (ws : List Int) (hw : ∀ w ∈ ws, 0 ≤ w) (i : Nat)
    (h : i < ws.length) :
    ((List.range ws.sum.toNat).countP (fun (u : Nat) => pickIndex ws (u : Int) == i)) =
      (ws.get ⟨i, h⟩).toNat := by
  induction ws generalizing i with
  | nil => simp at h
  | cons w ws ih =>
    have hw0 : 0 ≤ w := hw w (List.mem_cons_self _ _)
    have hws : ∀ x ∈ ws, 0 ≤ x := fun x hx => hw x (List.mem_cons_of_mem _ hx)
    have hsws : 0 ≤ ws.sum := sum_nonneg_of_mem ws hws
    have hsum : (w :: ws).sum.toNat = w.toNat + ws.sum.toNat := by
      simp only [List.sum_cons]
      omega
    rw [hsum, List.range_add, List.countP_append, List.countP_map]
    cases i with
    | zero =>
      have h1 : (List.range w.toNat).countP (fun (u : Nat) => pickIndex (w :: ws) (u : Int) == 0) =
          (List.range w.toNat).length := by
        apply List.countP_eq_length.mpr
        intro a ha
        rw [List.mem_range] at ha
        have : (a : Int) < w := by omega
        simp [pickIndex, this]
      have h2 : (List.range ws.sum.toNat).countP
          ((fun (u : Nat) => pickIndex (w :: ws) (u : Int) == 0) ∘ (w.toNat + ·)) = 0 := by
        apply List.countP_eq_zero.mpr
        intro a _
        simp only [Function.comp_apply, pickIndex]
        rw [if_neg (by omega)]
        simp
      rw [h1, h2, List.length_range]
      simp
    | succ j =>
      have h1 : (List.range w.toNat).countP
          (fun (u : Nat) => pickIndex (w :: ws) (u : Int) == j + 1) = 0 := by
        apply List.countP_eq_zero.mpr
        intro a ha
        rw [List.mem_range] at ha
        have : (a : Int) < w := by omega
        simp [pickIndex, this]
      have h2 : (List.range ws.sum.toNat).countP
          ((fun (u : Nat) => pickIndex (w :: ws) (u : Int) == j + 1) ∘ (w.toNat + ·)) =
          (List.range ws.sum.toNat).countP (fun (u : Nat) => pickIndex ws (u : Int) == j) := by
        apply List.countP_congr
        intro a _
        have hnlt : ¬ ((w.toNat + a : Nat) : Int) < w := by omega
        have harg : ((w.toNat + a : Nat) : Int) - w = (a : Int) := by
          push_cast
          omega
        simp only [Function.comp_apply, pickIndex, hnlt, if_false, harg]
        constructor <;> intro hx <;> simp_all
      have hj : j < ws.length := by simpa using h
      rw [h1, h2, ih hws j hj]
      simp

theorem wc_nonpos {α : Type} (p : α × Int) (ps : List (α × Int)) (r : Nat)
    (h : (((p :: ps).map Prod.snd).sum : Int) ≤ 0) :
    weighted_choice (p :: ps) r =
      some ((p :: ps).get ⟨r % (p :: ps).length, Nat.mod_lt _ (Nat.succ_pos _)⟩).1 := by
  simp only [weighted_choice]
  rw [if_pos h]

theorem wc_pos {α : Type} (p : α × Int) (ps : List (α × Int)) (r : Nat)
    (h : ¬ ((((p :: ps).map Prod.snd).sum : Int) ≤ 0)) :
    weighted_choice (p :: ps) r =
      (((p :: ps).get? (pickIndex ((p :: ps).map Prod.snd)
        ((r % (((p :: ps).map Prod.snd).sum).toNat : Nat) : Int)))).map Prod.fst := by
  simp only [weighted_choice]
  rw [if_neg h]

theorem wc_mem_of_pos {α : Type} (p : α × Int) (ps : List (α × Int)) (r : Nat)
    (hpos : 0 < (((p :: ps).map Prod.snd).sum : Int))
    (hw : ∀ q ∈ p :: ps, 0 ≤ q.2) :
    ∃ q ∈ p :: ps, weighted_choice (p :: ps) r = some q.1 := by
  have hw' : ∀ w ∈ (p :: ps).map Prod.snd, 0 ≤ w := by
    intro w hwm
    rcases List.mem_map.mp hwm with ⟨q, hq, rfl⟩
    exact hw q hq
  have htn : 0 < (((p :: ps).map Prod.snd).sum).toNat := by omega
  have hu0 : (0 : Int) ≤ ((r % (((p :: ps).map Prod.snd).sum).toNat : Nat) : Int) := by
    positivity
  have hult : ((r % (((p :: ps).map Prod.snd).sum).toNat : Nat) : Int) <
      ((p :: ps).map Prod.snd).sum := by
    have := Nat.mod_lt r htn
    omega
  have hidx := pickIndex_lt_length ((p :: ps).map Prod.snd) _ hu0 hult hw'
  rw [List.length_map] at hidx
  rw [wc_pos p ps r (by omega)]
  rw [List.get?_eq_get hidx]
  exact ⟨_, List.get_mem _ _ _, rfl⟩

/-! ## Claim theorems -/

/-- C6: for every sequence of (item, weight) pairs, `weighted_choice` returns
no selection on the empty sequence; when the weight total is at most zero it
returns an item picked uniformly by index (the draw `r` selects index
`r % length`, and every index is reachable); and when the total is positive
(with nonnegative weights) it returns a member item, where over one full cycle
of draws each index is selected exactly its weight's worth of times. -/
theorem C6_weighted_choice_spec :
    (∀ (α : Type) (r : Nat), weighted_choice ([] : List (α × Int)) r = none)
    ∧ (∀ (α : Type) (p : α × Int) (ps : List (α × Int)) (r : Nat),
        (((p :: ps).map Prod.snd).sum : Int) ≤ 0 →
        weighted_choice (p :: ps) r =
          some ((p :: ps).get ⟨r % (p :: ps).length, Nat.mod_lt _ (Nat.succ_pos _)⟩).1)
    ∧ (∀ (α : Type) (p : α × Int) (ps : List (α × Int)) (i : Nat) (h : i < (p :: ps).length),
        (((p :: ps).map Prod.snd).sum : Int) ≤ 0 →
        ∃ r, weighted_choice (p :: ps) r = some ((p :: ps).get ⟨i, h⟩).1)
    ∧ (∀ (α : Type) (p : α × Int) (ps : List (α × Int)) (r : Nat),
        0 < (((p :: ps).map Prod.snd).sum : Int) →
        (∀ q ∈ p :: ps, 0 ≤ q.2) →
        ∃ q ∈ p :: ps, weighted_choice (p :: ps) r = some q.1)
    ∧ (∀ (α : Type) (p : α × Int) (ps : List (α × Int)) (i : Nat) (h : i < (p :: ps).length),
        0 < (((p :: ps).map Prod.snd).sum : Int) →
        (∀ q ∈ p :: ps, 0 ≤ q.2) →
        ((List.range ((((p :: ps).map Prod.snd).sum).toNat)).countP
            (fun (u : Nat) => pickIndex ((p :: ps).map Prod.snd) (u : Int) == i))
          = (((p :: ps).get ⟨i, h⟩).2).toNat
        ∧ ∀ r : Nat, r < (((p :: ps).map Prod.snd).sum).toNat →
            weighted_choice (p :: ps) r =
              (((p :: ps).get? (pickIndex ((p :: ps).map Prod.snd) (r : Int)))).map Prod.fst) := by
  refine ⟨fun α r => rfl, fun α p ps r h => wc_nonpos p ps r h, ?_, ?_, ?_⟩
  · intro α p ps i h hle
    refine ⟨i, ?_⟩
    rw [wc_nonpos p ps i hle]
    have hmod : i % (ps.length + 1) = i := Nat.mod_eq_of_lt (by simpa using h)
    simp [hmod]
  · intro α p ps r hpos hw
    exact wc_mem_of_pos p ps r hpos hw
  · intro α p ps i h hpos hw
    constructor
    · have hw' : ∀ w ∈ (p :: ps).map Prod.snd, 0 ≤ w := by
        intro w hwm
        rcases List.mem_map.mp hwm with ⟨q, hq, rfl⟩
        exact hw q hq
      have hlen : i < ((p :: ps).map Prod.snd).length := by
        rw [List.length_map]; exact h
      have := pickIndex_count ((p :: ps).map Prod.snd) hw' i hlen
      rw [this]
      congr 1
      simp only [List.get_eq_getElem, List.getElem_map]
    · intro r hr
      rw [wc_pos p ps r (by omega), Nat.mod_eq_of_lt hr]

/-- Witness for C6 at concrete inputs: the empty list yields no selection; a
single item of weight `-1` is still selected (uniform fallback); with two items
of weight `0` the second item is reachable; with weights `2, 1` the draw lands
on a member and index `0` is hit twice among the three draws. -/
theorem C6_weighted_choice_witness :
    weighted_choice ([] : List (Nat × Int)) 0 = none
    ∧ weighted_choice [(5, (-1 : Int))] 3 = some 5
    ∧ (∃ r, weighted_choice [(7, (0 : Int)), (9, 0)] r = some 9)
    ∧ (∃ q ∈ [(1, (2 : Int)), (2, 1)], weighted_choice [(1, (2 : Int)), (2, 1)] 5 = some q.1)
    ∧ (List.range 3).countP
        (fun (u : Nat) => pickIndex ([(1, (2 : Int)), (2, 1)].map Prod.snd) (u : Int) == 0) = 2 := by
  refine ⟨C6_weighted_choice_spec.1 Nat 0, ?_, ?_, ?_, ?_⟩
  · simpa using C6_weighted_choice_spec.2.1 Nat (5, -1) [] 3 (by decide)
  · simpa using C6_weighted_choice_spec.2.2.1 Nat (7, 0) [(9, 0)] 1 (by decide) (by decide)
  · exact C6_weighted_choice_spec.2.2.2.1 Nat (1, 2) [(2, 1)] 5 (by decide) (by decide)
  · simpa using (C6_weighted_choice_spec.2.2.2.2 Nat (1, 2) [(2, 1)] 0 (by decide) (by decide)
      (by decide)).1

theorem one_le_effWeight (w : Option Int) (h : ¬ ∃ x, w = some x ∧ x < 0) :
    1 ≤ effWeight w := by
  cases w with
  | none => simp [effWeight]
  | some x =>
    push_neg at h
    have hx0 := h x rfl
    simp only [effWeight]
    by_cases hx : x = 0
    · simp [hx]
    · rw [if_neg hx]
      omega

theorem effWeight_sum_pos {α : Type} (f : α → Option Int) (ms : List α) (h : ms ≠ [])
    (hn : ¬ ∃ m ∈ ms, ∃ x, f m = some x ∧ x < 0) :
    0 < (((ms.map (fun m => (m, effWeight (f m)))).map Prod.snd).sum : Int) := by
  have key : ∀ l : List α, (¬ ∃ m ∈ l, ∃ x, f m = some x ∧ x < 0) →
      (l.length : Int) ≤ ((l.map (fun m => (m, effWeight (f m)))).map Prod.snd).sum := by
    intro l hl
    induction l with
    | nil => simp
    | cons a l ih =>
      have ha : ¬ ∃ x, f a = some x ∧ x < 0 := by
        intro ⟨x, hx⟩
        exact hl ⟨a, List.mem_cons_self _ _, x, hx⟩
      have hl' : ¬ ∃ m ∈ l, ∃ x, f m = some x ∧ x < 0 := by
        intro ⟨m, hm, hx⟩
        exact hl ⟨m, List.mem_cons_of_mem _ hm, hx⟩
      have h1 := one_le_effWeight (f a) ha
      have h2 := ih hl'
      simp only [List.map_cons, List.sum_cons, List.length_cons]
      push_cast
      omega
  have := key ms hn
  have hlen : 0 < ms.length := List.length_pos.mpr h
  have : (0 : Int) < ms.length := by exact_mod_cast hlen
  omega

/-- C10: payload composition passes every media or text item to
`weighted_choice` with effective weight `m.weight or 1`, so a stored weight of
`0` or null becomes `1`; consequently, for a nonempty item list the weight
total handed to `weighted_choice` can only be nonpositive when some item
carries a strictly negative stored weight (equivalently, with no negative
stored weight the total is positive and the uniform fallback is not taken). -/
theorem C10_default_weight_spec :
    (∀ w : Option Int, w = none ∨ w = some 0 → effWeight w = 1)
    ∧ (∀ (cat : CategoryData) (rm rc : Nat) (ac ab : Bool),
        cat.use_random_media = true → cat.media_items ≠ [] →
        (random_payload cat true ac ab rm rc).media =
          weighted_choice (cat.media_items.map (fun m => (m, effWeight m.weight))) rm)
    ∧ (∀ ms : List MediaDTO, ms ≠ [] →
        (((ms.map (fun m => (m, effWeight m.weight))).map Prod.snd).sum : Int) ≤ 0 →
        ∃ m ∈ ms, ∃ x, m.weight = some x ∧ x < 0)
    ∧ (∀ cs : List CopyDTO, cs ≠ [] →
        (((cs.map (fun c => (c, effWeight c.weight))).map Prod.snd).sum : Int) ≤ 0 →
        ∃ c ∈ cs, ∃ x, c.weight = some x ∧ x < 0) := by
  refine ⟨?_, ?_, ?_, ?_⟩
  · rintro w (rfl | rfl) <;> simp [effWeight]
  · intro cat rm rc ac ab hrand hne
    simp [random_payload, hne, hrand]
  · intro ms hne hle
    by_contra hcon
    have := effWeight_sum_pos MediaDTO.weight ms hne hcon
    omega
  · intro cs hne hle
    by_contra hcon
    have := effWeight_sum_pos CopyDTO.weight cs hne hcon
    omega

/-- Witness for C10 at concrete inputs: a null weight and a zero weight both
become `1`; the media branch of a concrete one-item category under the random
policy is the weighted draw; and a concrete nonpositive total forces a
negative stored weight. -/
theorem C10_default_weight_witness :
    effWeight none = 1
    ∧ effWeight (some 0) = 1
    ∧ (random_payload catOnePhoto true true true 0 0).media =
        weighted_choice (catOnePhoto.media_items.map (fun m => (m, effWeight m.weight))) 0
    ∧ (∃ m ∈ [mediaNeg], ∃ x, m.weight = some x ∧ x < 0) := by
  refine ⟨C10_default_weight_spec.1 none (Or.inl rfl),
    C10_default_weight_spec.1 (some 0) (Or.inr rfl), ?_, ?_⟩
  · exact C10_default_weight_spec.2.1 catOnePhoto 0 0 true true rfl (by simp [catOnePhoto])
  · exact C10_default_weight_spec.2.2.1 [mediaNeg] (by simp)
      (by simp [mediaNeg, effWeight])

theorem sentMedia_caption (cache : List (Int × Bool)) (chat : Int) (p : Payload)
    (adm : AdminOutcome) (snd : SendOutcome) (c : Int) (mt : String)
    (cap : Option String) (sp : Bool)
    (hmem : DEvent.sentMedia c mt cap sp ∈ (send_payload cache chat p adm snd).1) :
    ∃ m, p.media = some m ∧ cap = sendCaption m p.message := by
  unfold send_payload at hmem
  split at hmem
  · simp at hmem
  · simp at hmem
  · rename_i heq
    cases hp : p.media with
    | some m =>
      rw [hp] at hmem
      simp only at hmem
      refine ⟨m, rfl, ?_⟩
      split at hmem
      · cases snd <;> simp [sendAttempt] at hmem <;> try exact hmem.2.2.1
      · split at hmem
        · cases snd <;> simp [sendAttempt] at hmem <;> try exact hmem.2.2.1
        · simp at hmem
    | none =>
      rw [hp] at hmem
      simp only at hmem
      cases hm : p.message with
      | some msg =>
        rw [hm] at hmem
        cases snd <;> simp [sendAttempt] at hmem
      | none =>
        rw [hm] at hmem
        simp only at hmem
        split at hmem
        · cases snd <;> simp [sendAttempt] at hmem
        · simp at hmem

/-- C7 (amended): the caption sent with a media delivery is the media item's
own caption when that caption is present and nonempty, else the text choice's
text when a text choice is present, else nothing; every media-send event
emitted by `send_payload` carries exactly that caption.  (The claim as frozen
states the reverse precedence — text choice first — which
`C7_caption_counterexample` refutes.) -/
theorem C7_caption_amended :
    (∀ (m : MediaDTO) (msg : Option CopyDTO),
      (∀ s, m.caption = some s → s ≠ "" → sendCaption m msg = some s)
      ∧ ((m.caption = none ∨ m.caption = some "") →
          sendCaption m msg = msg.map CopyDTO.text))
    ∧ (∀ (cache : List (Int × Bool)) (chat : Int) (p : Payload) (adm : AdminOutcome)
        (snd : SendOutcome) (c : Int) (mt : String) (cap : Option String) (sp : Bool),
        DEvent.sentMedia c mt cap sp ∈ (send_payload cache chat p adm snd).1 →
        ∃ m, p.media = some m ∧ cap = sendCaption m p.message) := by
  constructor
  · intro m msg
    constructor
    · intro s hs hne
      simp [sendCaption, pyOrStr, hs, hne]
    · rintro (h | h) <;> simp [sendCaption, pyOrStr, h]
  · intro cache chat p adm snd c mt cap sp hmem
    exact sentMedia_caption cache chat p adm snd c mt cap sp hmem

/-- Witness for C7 (amended) at a concrete input: the payload holding the
photo captioned "A" together with the text row "B" is delivered with caption
"A", and `send_payload` indeed emits that media-send event. -/
theorem C7_caption_witness :
    sendCaption mediaCapA (some copyB) = some "A"
    ∧ (∃ m, payloadAB.media = some m ∧
        some "A" = sendCaption m payloadAB.message) := by
  constructor
  · exact (C7_caption_amended.1 mediaCapA (some copyB)).1 "A" rfl (by decide)
  · exact C7_caption_amended.2 [] 10 payloadAB (.status true) .ok 10 "photo" (some "A") false
      (by decide)

/-- C7 counterexample: for the payload holding a photo whose own caption is
"A" and a text choice reading "B", the claim says the sent caption is the
text choice's "B"; the engine sends caption "A" (the media's own caption wins
the Python `or`). -/
theorem C7_caption_counterexample :
    (send_payload [] 10 payloadAB (.status true) .ok).1 =
      [DEvent.sentMedia 10 "photo" (some "A") false]
    ∧ ¬ (send_payload [] 10 payloadAB (.status true) .ok).1 =
      [DEvent.sentMedia 10 "photo" (some copyB.text) false] := by
  constructor
  · decide
  · decide

/-- C9: the permission cache caches only positive results: a check that
answers `denied` or propagates an error leaves the cache unchanged, the only
entry a check can add is `(chat, true)`, and after any sequence of checks
every entry of an initially all-true cache still maps to `true` (so an
unconfirmed target is re-checked on every later dispatch). -/
theorem C9_positive_cache_spec :
    (∀ (cache : List (Int × Bool)) (chat : Int) (oc : AdminOutcome),
      (ensure_admin cache chat oc).1 = AdminAnswer.denied ∨
        (ensure_admin cache chat oc).1 = AdminAnswer.raised →
      (ensure_admin cache chat oc).2 = cache)
    ∧ (∀ (cache : List (Int × Bool)) (chat : Int) (oc : AdminOutcome)
        (e : Int × Bool), e ∈ (ensure_admin cache chat oc).2 → e ∈ cache ∨ e = (chat, true))
    ∧ (∀ (cache : List (Int × Bool)) (checks : List (Int × AdminOutcome)),
        (∀ e ∈ cache, e.2 = true) → ∀ e ∈ runChecks cache checks, e.2 = true) := by
  have step : ∀ (cache : List (Int × Bool)) (chat : Int) (oc : AdminOutcome)
      (e : Int × Bool), e ∈ (ensure_admin cache chat oc).2 → e ∈ cache ∨ e = (chat, true) := by
    intro cache chat oc e he
    unfold ensure_admin at he
    split at he
    · exact Or.inl he
    · cases oc with
      | forbidden => exact Or.inl he
      | raised => exact Or.inl he
      | status b =>
        cases b with
        | false => exact Or.inl he
        | true =>
          simp only [if_true] at he
          rcases List.mem_cons.mp he with h | h
          · exact Or.inr h
          · exact Or.inl h
  refine ⟨?_, step, ?_⟩
  · intro cache chat oc hans
    unfold ensure_admin at hans ⊢
    split at hans
    · rename_i hc
      rcases hans with h | h <;> simp at h
    · rename_i hc
      rw [if_neg hc]
      cases oc with
      | forbidden => rfl
      | raised => rfl
      | status b =>
        cases b with
        | false => rfl
        | true => simp at hans
  · intro cache checks
    induction checks generalizing cache with
    | nil => intro h e he; exact h e he
    | cons ck rest ih =>
      intro h e he
      rcases ck with ⟨chat, oc⟩
      refine ih (ensure_admin cache chat oc).2 ?_ e he
      intro e' he'
      rcases step cache chat oc e' he' with h1 | h1
      · exact h e' h1
      · rw [h1]

/-- Witness for C9 at a concrete run: starting from an empty cache, a
non-admin check, a forbidden check and one confirmed-admin check leave a cache
whose entries are all `true`, and the non-admin check changed nothing. -/
theorem C9_positive_cache_witness :
    (∀ e ∈ runChecks ([] : List (Int × Bool))
        [(1, AdminOutcome.status false), (2, AdminOutcome.forbidden),
          (3, AdminOutcome.status true)], e.2 = true)
    ∧ (ensure_admin ([] : List (Int × Bool)) 1 (AdminOutcome.status false)).2 = [] := by
  constructor
  · exact C9_positive_cache_spec.2.2 [] _ (by intro e he; simp at he)
  · exact C9_positive_cache_spec.1 [] 1 (AdminOutcome.status false) (Or.inl (by decide))

theorem ensure_admin_raised (cache : List (Int × Bool)) (chat : Int) (oc : AdminOutcome)
    (h : (ensure_admin cache chat oc).1 = AdminAnswer.raised) : oc = AdminOutcome.raised := by
  unfold ensure_admin at h
  split at h
  · simp at h
  · cases oc with
    | forbidden => simp at h
    | raised => rfl
    | status b => cases b <;> simp at h

theorem ensure_admin_status_true (cache : List (Int × Bool)) (chat : Int) :
    (ensure_admin cache chat (AdminOutcome.status true)).1 = AdminAnswer.ok := by
  unfold ensure_admin
  split <;> simp

theorem send_payload_raised (cache : List (Int × Bool)) (chat : Int) (p : Payload)
    (adm : AdminOutcome) (snd : SendOutcome)
    (h : (send_payload cache chat p adm snd).2.1 = true) : adm = AdminOutcome.raised := by
  unfold send_payload at h
  split at h
  · rename_i c heq
    exact ensure_admin_raised cache chat adm (by rw [heq])
  · simp at h
  · split at h
    · split at h
      · simp at h
      · split at h
        · simp at h
        · simp at h
    · split at h
      · simp at h
      · split at h
        · simp at h
        · simp at h

theorem send_payload_ok_text (cache : List (Int × Bool)) (chat : Int) (p : Payload)
    (msg : CopyDTO) (hm : p.media = none) (hmsg : p.message = some msg) :
    (send_payload cache chat p (AdminOutcome.status true) SendOutcome.ok).1 =
      [DEvent.sentText chat msg.text] := by
  unfold send_payload
  split
  · rename_i c heq
    have h1 := congrArg Prod.fst heq
    rw [ensure_admin_status_true] at h1
    simp at h1
  · rename_i c heq
    have h1 := congrArg Prod.fst heq
    rw [ensure_admin_status_true] at h1
    simp at h1
  · rw [hm, hmsg]
    simp [sendAttempt]

theorem runTargets_length (p : Payload) (cache : List (Int × Bool)) (ts : List TargetRun) :
    ((runTargets p cache ts).1).length = ts.length := by
  induction ts generalizing cache with
  | nil => rfl
  | cons t ts ih => simp [runTargets, ih]

theorem runTargets_no_raised (p : Payload) (cache : List (Int × Bool)) (ts : List TargetRun)
    (hall : ∀ t ∈ ts, t.adm ≠ AdminOutcome.raised) :
    ∀ pr ∈ (runTargets p cache ts).1, pr.2 = false := by
  induction ts generalizing cache with
  | nil => intro pr hpr; simp [runTargets] at hpr
  | cons t ts ih =>
    intro pr hpr
    simp only [runTargets] at hpr
    rcases List.mem_cons.mp hpr with h | h
    · subst h
      show (send_payload cache t.chat p t.adm t.snd).2.1 = false
      by_contra hb
      simp only [Bool.not_eq_false] at hb
      exact absurd (send_payload_raised cache t.chat p t.adm t.snd hb)
        (hall t (List.mem_cons_self _ _))
    · exact ih _ (fun t' ht' => hall t' (List.mem_cons_of_mem _ ht')) pr h

theorem runTargets_delivers (p : Payload) (msg : CopyDTO) (hm : p.media = none)
    (hmsg : p.message = some msg) (cache : List (Int × Bool)) (ts : List TargetRun)
    (i : Nat) (t : TargetRun) (hget : ts.get? i = some t)
    (hadm : t.adm = AdminOutcome.status true) (hsnd : t.snd = SendOutcome.ok) :
    (runTargets p cache ts).1.get? i = some ([DEvent.sentText t.chat msg.text], false) := by
  induction ts generalizing cache i with
  | nil => simp at hget
  | cons t0 ts ih =>
    cases i with
    | zero =>
      simp only [List.get?] at hget
      injection hget with h0
      simp only [runTargets, List.get?]
      rw [h0, hadm, hsnd]
      have h1 := send_payload_ok_text cache t.chat p msg hm hmsg
      have h2 : (send_payload cache t.chat p (AdminOutcome.status true) SendOutcome.ok).2.1 = false := by
        cases hx : (send_payload cache t.chat p (AdminOutcome.status true) SendOutcome.ok).2.1 with
        | false => rfl
        | true => simpa using send_payload_raised _ _ _ _ _ hx
      rw [h1, h2]
    | succ j =>
      simp only [List.get?] at hget
      simp only [runTargets, List.get?]
      exact ih _ j hget

/-- C2 (amended): per-target delivery failures never escape the delivery
coroutine — a `Forbidden` or generic transport error during the send is caught
and logged inside `_send_payload`, so the only exceptions collected by the
batch are generic errors from the admin pre-check; consequently no alert is
forwarded to the Admin Notifier when no admin check raises (in particular a
generic send error produces no alert, contrary to the frozen claim, refuted by
`C2_dispatch_alert_counterexample`); every target is processed, and a target
whose admin check confirms and whose send succeeds receives its delivery
regardless of the other targets' outcomes. -/
theorem C2_dispatch_isolation_amended :
    (∀ (cache : List (Int × Bool)) (chat : Int) (p : Payload) (adm : AdminOutcome)
        (snd : SendOutcome), (send_payload cache chat p adm snd).2.1 = true →
        adm = AdminOutcome.raised)
    ∧ (∀ (p : Payload) (cache : List (Int × Bool)) (ts : List TargetRun),
        ((runTargets p cache ts).1).length = ts.length)
    ∧ (∀ (slug : String) (hasRecipients : Bool) (p : Payload) (cache : List (Int × Bool))
        (ts : List TargetRun), (∀ t ∈ ts, t.adm ≠ AdminOutcome.raised) →
        (dispatch_category slug hasRecipients p cache ts).2.2 = [])
    ∧ (∀ (p : Payload) (msg : CopyDTO) (cache : List (Int × Bool)) (ts : List TargetRun)
        (i : Nat) (t : TargetRun), p.media = none → p.message = some msg →
        ts.get? i = some t → t.adm = AdminOutcome.status true → t.snd = SendOutcome.ok →
        (runTargets p cache ts).1.get? i = some ([DEvent.sentText t.chat msg.text], false)) := by
  refine ⟨send_payload_raised, runTargets_length, ?_, ?_⟩
  · intro slug hasRecipients p cache ts hall
    have hz : ((runTargets p cache ts).1.filter (fun pr => pr.2)).length = 0 := by
      rw [List.length_eq_zero]
      rw [List.filter_eq_nil]
      intro pr hpr
      simp [runTargets_no_raised p cache ts hall pr hpr]
    simp only [dispatch_category]
    rw [hz]
    cases hasRecipients <;> simp
  · intro p msg cache ts i t hm hmsg hget hadm hsnd
    exact runTargets_delivers p msg hm hmsg cache ts i t hget hadm hsnd

/-- Witness for C2 (amended) at scenario C: three targets — one succeeding,
one forbidden at send, one failing with a generic send error — produce no
alert, three results, and the first target's delivery. -/
theorem C2_dispatch_isolation_witness :
    (dispatch_category "c" true payloadText [] [tOk, tForb, tErr]).2.2 = []
    ∧ ((runTargets payloadText [] [tOk, tForb, tErr]).1).length = 3
    ∧ (runTargets payloadText [] [tOk, tForb, tErr]).1.get? 0 =
        some ([DEvent.sentText 1 copyB.text], false) := by
  refine ⟨?_, ?_, ?_⟩
  · exact C2_dispatch_isolation_amended.2.2.1 "c" true payloadText [] [tOk, tForb, tErr]
      (by intro t ht; fin_cases ht <;> decide)
  · exact C2_dispatch_isolation_amended.2.1 payloadText [] [tOk, tForb, tErr]
  · exact C2_dispatch_isolation_amended.2.2.2 payloadText copyB [] [tOk, tForb, tErr] 0 tOk
      rfl rfl rfl rfl rfl

/-- C2 counterexample: at scenario C (target 1 succeeds, target 2's send
raises Forbidden, target 3's send raises a generic error, administrators
configured) the claim requires exactly one alert for target 3; the engine
forwards no alert at all — the generic send error was caught and only logged
— while the three per-target event lists confirm send, forbidden-log and
error-log respectively. -/
theorem C2_dispatch_alert_counterexample :
    (dispatch_category "c" true payloadText [] [tOk, tForb, tErr]).2.2.length = 0
    ∧ ¬ ((dispatch_category "c" true payloadText [] [tOk, tForb, tErr]).2.2.length = 1)
    ∧ ((runTargets payloadText [] [tOk, tForb, tErr]).1.map Prod.fst) =
        [[DEvent.sentText 1 "B"], [DEvent.logForbidden 2], [DEvent.logError 3]] := by
  refine ⟨by decide, by decide, by decide⟩

theorem hbGt_irrefl (a : Option Int) : hbGt a a = false := by
  cases a <;> simp [hbGt]

theorem hbGt_trans (a b c : Option Int) (h1 : hbGt a b = true) (h2 : hbGt b c = true) :
    hbGt a c = true := by
  cases a <;> cases b <;> cases c <;> simp [hbGt] at h1 h2 ⊢ <;> omega

theorem hbGt_trans2 (a b c : Option Int) (h1 : hbGt a c = true) (h2 : hbGt b c = false) :
    hbGt a b = true := by
  cases a <;> cases b <;> cases c <;> simp [hbGt] at h1 h2 ⊢ <;> omega

theorem foldBest_spec (cs : List BotRec) : ∀ c : BotRec,
    (cs.foldl (fun best b => if hbGt b.last_heartbeat best.last_heartbeat then b else best) c)
      ∈ c :: cs
    ∧ ∀ x ∈ c :: cs,
        hbGt x.last_heartbeat
          ((cs.foldl (fun best b =>
            if hbGt b.last_heartbeat best.last_heartbeat then b else best) c).last_heartbeat)
          = false := by
  induction cs with
  | nil =>
    intro c
    refine ⟨List.mem_cons_self _ _, ?_⟩
    intro x hx
    simp at hx
    subst hx
    exact hbGt_irrefl _
  | cons b cs ih =>
    intro c
    simp only [List.foldl]
    by_cases hbc : hbGt b.last_heartbeat c.last_heartbeat = true
    · rw [if_pos hbc]
      obtain ⟨hmem, hmax⟩ := ih b
      refine ⟨?_, ?_⟩
      · rcases List.mem_cons.mp hmem with h | h
        · rw [h]
          exact List.mem_cons_of_mem _ (List.mem_cons_self _ _)
        · exact List.mem_cons_of_mem _ (List.mem_cons_of_mem _ h)
      · intro x hx
        rcases List.mem_cons.mp hx with h | h
        · subst h
          by_contra hcon
          simp only [Bool.not_eq_false] at hcon
          have hbf := hbGt_trans _ _ _ hbc hcon
          rw [hmax b (List.mem_cons_self _ _)] at hbf
          exact Bool.false_ne_true hbf
        · exact hmax x h
    · rw [if_neg hbc]
      obtain ⟨hmem, hmax⟩ := ih c
      refine ⟨?_, ?_⟩
      · rcases List.mem_cons.mp hmem with h | h
        · rw [h]
          exact List.mem_cons_self _ _
        · exact List.mem_cons_of_mem _ (List.mem_cons_of_mem _ h)
      · intro x hx
        rcases List.mem_cons.mp hx with h | h
        · rw [h]
          exact hmax c (List.mem_cons_self _ _)
        · rcases List.mem_cons.mp h with h1 | h1
          · rw [h1]
            by_contra hcon
            simp only [Bool.not_eq_false] at hcon
            have hc := hmax c (List.mem_cons_self _ _)
            exact absurd (hbGt_trans2 _ _ _ hcon hc) hbc
          · exact hmax x (List.mem_cons_of_mem _ h1)

theorem chooseReplacement_none_iff (bots : List BotRec) (failedId : Int) :
    chooseReplacement bots failedId = none ↔
      bots.filter (fun b => b.id ≠ failedId) = [] := by
  unfold chooseReplacement
  cases h : bots.filter (fun b => b.id ≠ failedId) with
  | nil => simp
  | cons c cs => simp

theorem chooseReplacement_max (bots : List BotRec) (failedId : Int) (w : BotRec)
    (h : chooseReplacement bots failedId = some w) :
    w ∈ bots.filter (fun b => b.id ≠ failedId)
    ∧ ∀ c ∈ bots.filter (fun b => b.id ≠ failedId),
        hbGt c.last_heartbeat w.last_heartbeat = false := by
  unfold chooseReplacement at h
  cases hf : bots.filter (fun b => b.id ≠ failedId) with
  | nil => rw [hf] at h; simp at h
  | cons c cs =>
    rw [hf] at h
    simp only [Option.some_inj] at h
    obtain ⟨hmem, hmax⟩ := foldBest_spec cs c
    subst h
    exact ⟨hf ▸ hmem, fun x hx => hmax x (hf ▸ hx)⟩

theorem detectAll_active_iff_healthy (cfg now : Int) (bots : List BotRec) :
    ∀ b ∈ (detectAll cfg now bots).1,
      (b.status = "active") ↔ (isHealthy cfg now b = true) := by
  induction bots with
  | nil => intro b hb; simp [detectAll] at hb
  | cons b0 bs ih =>
    intro b hb
    simp only [detectAll] at hb
    rcases List.mem_cons.mp hb with h | h
    · subst h
      unfold detectBot
      by_cases hh : isHealthy cfg now b0 = true
      · rw [if_pos hh]
        by_cases hs : b0.status ≠ "active"
        · rw [if_pos hs]
          simp only
          constructor
          · intro _; exact hh
          · intro _; trivial
        · rw [if_neg hs]
          simp only
          push_neg at hs
          constructor
          · intro _; exact hh
          · intro _; exact hs
      · rw [if_neg hh]
        simp only
        constructor
        · intro hc; exact absurd hc (by simp)
        · intro hc
          exact absurd hc hh
    · exact ih b h

theorem detectAll_events (cfg now : Int) (bots : List BotRec) :
    ∀ e ∈ (detectAll cfg now bots).2.2.2, isDetectEvent e = true := by
  induction bots with
  | nil => intro e he; simp [detectAll] at he
  | cons b0 bs ih =>
    intro e he
    simp only [detectAll] at he
    rcases List.mem_append.mp he with h | h
    · unfold detectBot at h
      split at h
      · split at h
        · simp at h
          rw [h]
          rfl
        · simp at h
      · simp at h
        rw [h]
        rfl
    · exact ih e h

theorem reassignBot_events (al : List BotRec) (b : BotRec)
    (st : List GroupRec × List FailoverLog × List SupEvent) :
    ∀ e ∈ (reassignBot al b st).2.2, e ∈ st.2.2 ∨ isReassignEvent e = true := by
  unfold reassignBot
  generalize st.1.filter (fun g => g.assigned_bot_id = some b.id ∧ g.active) = gs
  induction gs generalizing st with
  | nil => intro e he; exact Or.inl he
  | cons g gs ih =>
    intro e he
    simp only [List.foldl] at he
    rcases ih _ e he with h | h
    · simp only at h
      rcases List.mem_append.mp h with h1 | h1
      · exact Or.inl h1
      · simp at h1
        rw [h1]
        exact Or.inr rfl
    · exact Or.inr h

theorem reassignFold_events (al : List BotRec) (offline : List BotRec)
    (st : List GroupRec × List FailoverLog × List SupEvent) :
    ∀ e ∈ (offline.foldl (fun acc b => reassignBot al b acc) st).2.2,
      e ∈ st.2.2 ∨ isReassignEvent e = true := by
  induction offline generalizing st with
  | nil => intro e he; exact Or.inl he
  | cons b bs ih =>
    intro e he
    simp only [List.foldl] at he
    rcases ih _ e he with h | h
    · exact reassignBot_events al b st e h
    · exact Or.inr h

/-- C3: the claim is refuted by the code (and the code contradicts its own
promotion machinery): in a fleet holding a healthy worker stored "active" and a
healthy worker stored "standby", one supervisor tick rewrites the standby
worker to "active" already during the per-worker health phase (the
`bot.status != "active"` normalization), producing a second simultaneously
active worker, and the fleet-wide promotion conditional — evaluated on the
synchronized rows — never fires (its `standby_bots` list is empty because the
standby test runs after the normalization).  The trace shows the health-phase
write for worker 2 and the unfired promotion phase. -/
theorem C3_standby_promoted_in_health_phase :
    ((check_bots 120 100 stateTwoHealthy).1.bots.map BotRec.status = ["active", "active"])
    ∧ ((check_bots 120 100 stateTwoHealthy).2 =
        [SupEvent.statusWrite 2 "active", SupEvent.promotionPhase false]) := by
  refine ⟨by decide, by decide⟩

/-- C4: scenario A holds — after one tick on the stale active worker 1 (target
`gT` assigned) and healthy standby worker 2, worker 1 is "offline", worker 2 is
"active", the target is reassigned to worker 2 and exactly one failover record
with reason "heartbeat timeout" exists; in general `_choose_replacement`
returns none exactly when no candidate other than the failed worker exists, and
otherwise a candidate none of whose rivals has a strictly more recent
heartbeat (a missing heartbeat sorting below every recorded one), while after
the health phase a worker's status is "active" exactly when it is healthy, so
the candidate pool is the healthy-and-active workers. -/
theorem C4_failover_replacement_spec :
    ((check_bots 120 100 stateA).1.bots.map BotRec.status = ["offline", "active"])
    ∧ ((check_bots 120 100 stateA).1.groups.map GroupRec.assigned_bot_id = [some 2])
    ∧ ((check_bots 120 100 stateA).1.failovers =
        [{ group_id := 7, old_bot_id := some 1, new_bot_id := some 2,
            reason := "heartbeat timeout" }])
    ∧ (∀ (bots : List BotRec) (failedId : Int),
        chooseReplacement bots failedId = none ↔
          bots.filter (fun b => b.id ≠ failedId) = [])
    ∧ (∀ (bots : List BotRec) (failedId : Int) (w : BotRec),
        chooseReplacement bots failedId = some w →
        w ∈ bots.filter (fun b => b.id ≠ failedId)
        ∧ ∀ c ∈ bots.filter (fun b => b.id ≠ failedId),
            hbGt c.last_heartbeat w.last_heartbeat = false)
    ∧ (∀ (cfg now : Int) (bots : List BotRec), ∀ b ∈ (detectAll cfg now bots).1,
        (b.status = "active") ↔ (isHealthy cfg now b = true)) := by
  exact ⟨by decide, by decide, by decide, chooseReplacement_none_iff,
    chooseReplacement_max, detectAll_active_iff_healthy⟩

/-- Witness for C4 at concrete inputs: the empty candidate pool yields no
replacement; with the healthy standby worker as the only candidate it is the
chosen maximal-heartbeat replacement; and on the scenario-A fleet the health
phase leaves "active" exactly on the healthy worker. -/
theorem C4_failover_witness :
    (chooseReplacement [] 1 = none ↔ (([] : List BotRec).filter (fun b => b.id ≠ 1)) = [])
    ∧ (w2Standby ∈ [w2Standby].filter (fun b => b.id ≠ 1)
        ∧ ∀ c ∈ [w2Standby].filter (fun b => b.id ≠ 1),
            hbGt c.last_heartbeat w2Standby.last_heartbeat = false)
    ∧ (∀ b ∈ (detectAll 120 100 [w1Stale, w2Standby]).1,
        (b.status = "active") ↔ (isHealthy 120 100 b = true)) :=
  ⟨C4_failover_replacement_spec.2.2.2.1 [] 1,
    C4_failover_replacement_spec.2.2.2.2.1 [w2Standby] 1 w2Standby (by decide),
    C4_failover_replacement_spec.2.2.2.2.2 120 100 [w1Stale, w2Standby]⟩

/-- C5 counterexample: on the scenario-A fleet the tick's event trace runs
offline-detection writes, then the fleet-wide promotion conditional, then the
reassignment — so the claim's requirement that every reassignment precede the
promotion phase fails (the promotion phase is evaluated at index 2, before the
reassignment at index 3). -/
theorem C5_phase_order_counterexample :
    ((check_bots 120 100 stateA).2 =
      [SupEvent.statusWrite 1 "offline", SupEvent.statusWrite 2 "active",
        SupEvent.promotionPhase false, SupEvent.reassign 7 (some 2)])
    ∧ ¬ (∀ (i j : Fin ((check_bots 120 100 stateA).2.length)),
          isReassignEvent ((check_bots 120 100 stateA).2.get i) = true →
          isPromotionPhaseEvent ((check_bots 120 100 stateA).2.get j) = true →
          (i : Nat) < (j : Nat)) := by
  refine ⟨by decide, by decide⟩

/-- C5 (amended): within one supervisor tick the three phases are strictly
sequential in program order detection, promotion, reassignment: the trace
splits into health-phase status writes, then the fleet-wide promotion phase
(its conditional marker followed only by promotion writes), then only
reassignment events.  (The frozen claim placed promotion after reassignment;
`C5_phase_order_counterexample` refutes that order.) -/
theorem C5_phase_order_amended :
    ∀ (cfg now : Int) (s : SupState),
      ∃ a b c : List SupEvent,
        (check_bots cfg now s).2 = a ++ b ++ c
        ∧ (∀ e ∈ a, isDetectEvent e = true)
        ∧ (∃ fired rest, b = SupEvent.promotionPhase fired :: rest ∧
            ∀ e ∈ rest, isPromoteEvent e = true)
        ∧ (∀ e ∈ c, isReassignEvent e = true) := by
  intro cfg now s
  simp only [check_bots]
  refine ⟨_, _, _, rfl, ?_, ?_, ?_⟩
  · exact detectAll_events cfg now s.bots
  · refine ⟨_, _, rfl, ?_⟩
    split
    · intro e he
      rcases List.mem_map.mp he with ⟨b, _, hb⟩
      rw [← hb]
      rfl
    · intro e he
      simp at he
  · intro e he
    rcases reassignFold_events _ _ _ e he with h | h
    · simp at h
    · exact h

/-- Witness for C5 (amended) at the scenario-A fleet: its tick trace splits
into detection writes, the promotion phase, and reassignments. -/
theorem C5_phase_order_witness :
    ∃ a b c : List SupEvent,
      (check_bots 120 100 stateA).2 = a ++ b ++ c
      ∧ (∀ e ∈ a, isDetectEvent e = true)
      ∧ (∃ fired rest, b = SupEvent.promotionPhase fired :: rest ∧
          ∀ e ∈ rest, isPromoteEvent e = true)
      ∧ (∀ e ∈ c, isReassignEvent e = true) :=
  C5_phase_order_amended 120 100 stateA

/-- C1 counterexample: for the due content group `catDue` (interval 60,
next-dispatch in the past) whose dispatch raises, the tick leaves
`next_dispatch_at` unchanged at its old value instead of advancing it to
(tick time + interval) as the claim demands — even though the group was
dispatched (its id appears in the processed list). -/
theorem C1_advancement_counterexample :
    ((scheduler_process 0 (fun _ => true) [catDue]).1.map CategoryData.next_dispatch_at
      = [some (-5)])
    ∧ ¬ ((scheduler_process 0 (fun _ => true) [catDue]).1.map CategoryData.next_dispatch_at
      = [some 60])
    ∧ (scheduler_process 0 (fun _ => true) [catDue]).2 = [1] := by
  refine ⟨by decide, by decide, by decide⟩

/-- C1 (amended): in one scheduler tick every due content group's dispatch is
attempted, in order, regardless of other groups' failures; a group whose
dispatch returns normally has `next_dispatch_at` advanced to
(tick time + dispatch_interval); a group whose dispatch raises is logged and
skipped — its `next_dispatch_at` is left unchanged — and a group that is not
due is untouched.  (The frozen claim's "advance on success or failure alike"
holds only for failures swallowed inside the Dispatch Engine, not for raised
ones; refuted by `C1_advancement_counterexample`.) -/
theorem C1_scheduler_advancement_amended :
    ∀ (now : Int) (raisesOn : Int → Bool) (cats : List CategoryData) (i : Nat)
      (c : CategoryData), cats.get? i = some c →
      ((scheduler_process now raisesOn cats).1.get? i =
        some (if isDue now c && !raisesOn c.id then record_dispatch now c else c))
      ∧ (isDue now c = true → raisesOn c.id = false →
          ∀ iv, c.dispatch_interval_minutes = some iv →
            ∃ c', (scheduler_process now raisesOn cats).1.get? i = some c'
              ∧ c'.next_dispatch_at = some (now + iv))
      ∧ (raisesOn c.id = true →
          (scheduler_process now raisesOn cats).1.get? i = some c)
      ∧ (isDue now c = false →
          (scheduler_process now raisesOn cats).1.get? i = some c)
      ∧ ((scheduler_process now raisesOn cats).2 =
          (cats.filter (isDue now)).map (fun c0 => c0.id)) := by
  intro now raisesOn cats i c hget
  have hbase : (scheduler_process now raisesOn cats).1.get? i =
      some (if isDue now c && !raisesOn c.id then record_dispatch now c else c) := by
    simp only [scheduler_process, List.get?_map, hget]
    rfl
  refine ⟨hbase, ?_, ?_, ?_, rfl⟩
  · intro hdue hok iv hiv
    refine ⟨record_dispatch now c, ?_, ?_⟩
    · rw [hbase, hdue, hok]
      rfl
    · simp [record_dispatch, hiv]
  · intro hra
    rw [hbase, hra]
    simp
  · intro hdue
    rw [hbase, hdue]
    simp

/-- Witness for C1 (amended) at concrete inputs: when the dispatch of `catDue`
returns normally its next-dispatch time advances to 0 + 60; when it raises the
row is unchanged; in both runs the group was processed. -/
theorem C1_scheduler_advancement_witness :
    (∃ c', (scheduler_process 0 (fun _ => false) [catDue]).1.get? 0 = some c'
      ∧ c'.next_dispatch_at = some (0 + 60))
    ∧ ((scheduler_process 0 (fun _ => true) [catDue]).1.get? 0 = some catDue)
    ∧ ((scheduler_process 0 (fun _ => false) [catDue]).2 =
        ([catDue].filter (isDue 0)).map (fun c0 => c0.id)) :=
  ⟨(C1_scheduler_advancement_amended 0 (fun _ => false) [catDue] 0 catDue rfl).2.1
      (by decide) rfl 60 rfl,
    (C1_scheduler_advancement_amended 0 (fun _ => true) [catDue] 0 catDue rfl).2.2.1 rfl,
    (C1_scheduler_advancement_amended 0 (fun _ => false) [catDue] 0 catDue rfl).2.2.2.2⟩

/-- C8: the heartbeat reporter's `stop` with no task is a no-op; `start` while
a live task exists creates no second task (the monitor state is unchanged);
the loop invokes the callback once per iteration whatever exceptions the
callback raises (an exception never shortens the run); and every callback
invocation in the trace is immediately preceded by the inter-tick sleep for
the configured interval. -/
theorem C8_heartbeat_spec :
    (∀ m : HBMon, m.task = none → hb_stop m = m)
    ∧ (∀ (m : HBMon) (t : HBTask), m.task = some t → t.done = false → hb_start m = m)
    ∧ (∀ (name : String) (interval : Int) (outs : List Bool),
        (hb_run name interval outs).countP isCallbackCall = outs.length)
    ∧ (∀ (name : String) (interval : Int) (outs : List Bool) (i : Nat),
        (hb_run name interval outs).get? i = some (HBEvent.callbackCall name) →
        1 ≤ i ∧ (hb_run name interval outs).get? (i - 1) =
          some (HBEvent.sleep interval)) := by
  refine ⟨?_, ?_, ?_, ?_⟩
  · intro m hm
    unfold hb_stop
    rw [hm]
  · intro m t hm ht
    unfold hb_start
    rw [hm]
    simp [ht]
  · intro name interval outs
    induction outs with
    | nil => rfl
    | cons r rest ih =>
      cases r <;>
        simp [hb_run, List.countP_cons, List.countP_append, isCallbackCall, ih]
  · intro name interval outs
    induction outs with
    | nil => intro i h; simp [hb_run] at h
    | cons r rest ih =>
      intro i h
      cases r with
      | false =>
        match i with
        | 0 => simp [hb_run] at h
        | 1 => exact ⟨le_refl 1, rfl⟩
        | (j + 2) =>
          have h' : (hb_run name interval rest).get? j =
              some (HBEvent.callbackCall name) := by
            simpa [hb_run] using h
          obtain ⟨h1, h2⟩ := ih j h'
          refine ⟨by omega, ?_⟩
          obtain ⟨k, rfl⟩ := Nat.exists_eq_add_of_le h1
          have hidx : 1 + k + 2 - 1 = k + 2 := by omega
          rw [hidx]
          have hred : (hb_run name interval (false :: rest)).get? (k + 2) =
              (hb_run name interval rest).get? k := by
            simp [hb_run]
          rw [hred]
          have hk : 1 + k - 1 = k := by omega
          rw [hk] at h2
          exact h2
      | true =>
        match i with
        | 0 => simp [hb_run] at h
        | 1 => exact ⟨le_refl 1, rfl⟩
        | 2 => simp [hb_run] at h
        | (j + 3) =>
          have h' : (hb_run name interval rest).get? j =
              some (HBEvent.callbackCall name) := by
            simpa [hb_run] using h
          obtain ⟨h1, h2⟩ := ih j h'
          refine ⟨by omega, ?_⟩
          obtain ⟨k, rfl⟩ := Nat.exists_eq_add_of_le h1
          have hidx : 1 + k + 3 - 1 = k + 3 := by omega
          rw [hidx]
          have hred : (hb_run name interval (true :: rest)).get? (k + 3) =
              (hb_run name interval rest).get? k := by
            simp [hb_run]
          rw [hred]
          have hk : 1 + k - 1 = k := by omega
          rw [hk] at h2
          exact h2

/-- Witness for C8 at concrete inputs: stopping an idle monitor and starting a
running one change nothing; a two-iteration run whose first callback raises
still performs both callbacks; and the callback at index 4 is preceded by the
sleep at index 3. -/
theorem C8_heartbeat_witness :
    hb_stop { task := none, nextId := 5 } = { task := none, nextId := 5 }
    ∧ hb_start { task := some ⟨0, false⟩, nextId := 1 } =
        { task := some ⟨0, false⟩, nextId := 1 }
    ∧ (hb_run "w" 60 [true, false]).countP isCallbackCall = 2
    ∧ (1 ≤ 4 ∧ (hb_run "w" 60 [true, false]).get? (4 - 1) =
        some (HBEvent.sleep 60)) :=
  ⟨C8_heartbeat_spec.1 _ rfl,
    C8_heartbeat_spec.2.1 _ ⟨0, false⟩ rfl rfl,
    C8_heartbeat_spec.2.2.1 "w" 60 [true, false],
    C8_heartbeat_spec.2.2.2 "w" 60 [true, false] 4 (by decide)⟩

end Kings
